import Mathlib

/-!
Shallow embedding of the background job engine of `buflite-backend`
(`src/jobs/job.service.ts` together with the job models in
`src/models/mongodb/Job.ts` and `src/models/mysql/Job.ts`).

Times are modelled as natural numbers (milliseconds), job ids as naturals,
stores as lists of records.  JavaScript truthiness of numeric option values
(`x || default`, where `0` is falsy) is modelled explicitly by `jsOr`.
-/

namespace Buflite

/-- The five job statuses of `JobStatus` in `src/jobs/types`. -/
inductive JobStatus where
  | pending
  | running
  | completed
  | failed
  | cancelled
deriving DecidableEq, Repr

/-- The four job priorities of `JobPriority` in `src/jobs/types`. -/
inductive JobPriority where
  | low
  | normal
  | high
  | critical
deriving DecidableEq, Repr

/-- `SerializedJobFunction`: name, argument list, and the optional serialized
source text of the function (`serializeFunction` always stores
`fn.toString()` into `module`). -/
structure SerializedJobFunction where
  functionName : String
  args : List String
  module : Option String
deriving DecidableEq, Repr

/-- `JobResult` as persisted into a record at a terminal transition. -/
structure JobResult where
  success : Bool
  data : Option String
  error : Option String
  executionTime : Option Nat
deriving DecidableEq, Repr

/-- The job record, following `JobData` / the two `Job` models. -/
structure JobRecord where
  id : Nat
  name : String
  functionData : SerializedJobFunction
  status : JobStatus
  priority : JobPriority
  scheduledAt : Option Nat
  startedAt : Option Nat
  completedAt : Option Nat
  result : Option JobResult
  error : Option String
  retryCount : Nat
  maxRetries : Nat
  retryDelay : Nat
  timeout : Nat
  createdAt : Nat
  updatedAt : Nat
deriving DecidableEq, Repr

/-- `JobServiceConfig` (the constructor fills it from `config.jobs` plus
hard-coded values: `maxConcurrency = 5`, `defaultRetryDelay = 5000`,
`defaultTimeout = 300000`, `maxJobAge` = 7 days). -/
structure JobServiceConfig where
  pollInterval : Nat
  maxConcurrency : Nat
  defaultMaxRetries : Nat
  defaultRetryDelay : Nat
  defaultTimeout : Nat
  cleanupInterval : Nat
  maxJobAge : Nat
deriving DecidableEq, Repr

/-- The configuration built in the `JobService` constructor with the
default environment (`JOB_POLL_INTERVAL=5000`, `JOB_MAX_RETRIES=3`,
`JOB_CLEANUP_INTERVAL=86400000`). -/
def serviceConfig : JobServiceConfig :=
  { pollInterval := 5000
    maxConcurrency := 5
    defaultMaxRetries := 3
    defaultRetryDelay := 5000
    defaultTimeout := 300000
    cleanupInterval := 86400000
    maxJobAge := 7 * 24 * 60 * 60 * 1000 }

/-- `JobOptions` as accepted by `createJob`. -/
structure JobOptions where
  priority : Option JobPriority := none
  maxRetries : Option Nat := none
  retryDelay : Option Nat := none
  timeout : Option Nat := none
  scheduledAt : Option Nat := none
deriving DecidableEq, Repr

/-- JavaScript `x || d` on an optional numeric option: `0` is falsy, so a
supplied `0` falls back to the default, as does an absent value. -/
def jsOr (x : Option Nat) (d : Nat) : Nat :=
  match x with
  | some v => if v = 0 then d else v
  | none => d

/-- JavaScript `x || d` on an optional string: the empty string is falsy. -/
def jsOrStr (x : Option String) (d : String) : String :=
  match x with
  | some s => if s = "" then d else s
  | none => d

/-- `serializeFunction`: `functionName := fn.name || "anonymous"`, empty
args, and the function source stored in `module`. -/
def serializeFunction (fnName : String) (fnSource : String) : SerializedJobFunction :=
  { functionName := jsOrStr (some fnName) "anonymous"
    args := []
    module := some fnSource }

/-- `createJob`: builds the record inserted into the store.  Numeric options
go through `||` against the service defaults, `priority` defaults to
`normal`, `scheduledAt` to the current time, `status` to `pending` and
`retryCount` to `0`. -/
def createJob (cfg : JobServiceConfig) (opts : JobOptions) (id : Nat) (now : Nat)
    (fnName fnSource : String) (customName : Option String) : JobRecord :=
  let functionData := serializeFunction fnName fnSource
  { id := id
    name := jsOrStr customName (jsOrStr (some functionData.functionName) "anonymous")
    functionData := functionData
    status := .pending
    priority := opts.priority.getD .normal
    scheduledAt := some (opts.scheduledAt.getD now)
    startedAt := none
    completedAt := none
    result := none
    error := none
    retryCount := 0
    maxRetries := jsOr opts.maxRetries cfg.defaultMaxRetries
    retryDelay := jsOr opts.retryDelay cfg.defaultRetryDelay
    timeout := jsOr opts.timeout cfg.defaultTimeout
    createdAt := now
    updatedAt := now }

/-- `updateJobStatus` at the store level: `findOneAndUpdate({ id }, patch)` /
`update({ id }, patch)` — the filter is the id alone, with no condition on
the current status. -/
def updateJobStatusStore (store : List JobRecord) (id : Nat)
    (patch : JobRecord → JobRecord) : List JobRecord :=
  store.map fun r => if r.id = id then patch r else r

/-- The patch applied by `executeJob` when it marks a job running:
`updateJobStatus(job.id, "running", { startedAt: new Date() })`. -/
def markRunning (r : JobRecord) (now : Nat) : JobRecord :=
  { r with status := .running, startedAt := some now, updatedAt := now }

/-- The claim step of `executeJob` on the store: an update keyed on the job
id alone (no compare-and-set on the status). -/
def claimJobStore (store : List JobRecord) (id : Nat) (now : Nat) : List JobRecord :=
  updateJobStatusStore store id (fun r => markRunning r now)

/-- The compare-and-set claim described by the specification (`tryClaim`):
succeed, and transition to `running`, only when the record is still
`pending`.  This definition follows the wording of the spec, for comparison
with `claimJobStore` above; the service code contains no such operation. -/
def tryClaimCAS (store : List JobRecord) (id : Nat) (now : Nat) :
    Bool × List JobRecord :=
  match store.find? (fun r => r.id = id && r.status == JobStatus.pending) with
  | some _ =>
      (true, store.map fun r =>
        if r.id = id && r.status == JobStatus.pending then markRunning r now else r)
  | none => (false, store)

/-- Success branch of `executeJob`: status `completed`, `completedAt` set,
`result = { success: true, data, executionTime }`. -/
def completeJob (r : JobRecord) (now executionTime : Nat) (data : String) : JobRecord :=
  { r with status := .completed
           completedAt := some now
           result := some { success := true, data := some data, error := none
                            executionTime := some executionTime }
           updatedAt := now }

/-- `scheduleRetry`: back to `pending`, `retryCount + 1`,
`scheduledAt = now + retryDelay`, transient `error` cleared. -/
def scheduleRetry (r : JobRecord) (now : Nat) : JobRecord :=
  { r with status := .pending
           retryCount := r.retryCount + 1
           scheduledAt := some (now + r.retryDelay)
           error := none
           updatedAt := now }

/-- Terminal failure branch of `executeJob`: status `failed`, `completedAt`
set, `result = { success: false, error, executionTime }`. -/
def failJob (r : JobRecord) (now executionTime : Nat) (errMsg : String) : JobRecord :=
  { r with status := .failed
           completedAt := some now
           error := some errMsg
           result := some { success := false, data := none, error := some errMsg
                            executionTime := some executionTime }
           updatedAt := now }

/-- The `catch` branch of `executeJob`: retry while
`job.retryCount < job.maxRetries`, otherwise terminal failure. -/
def handleFailure (r : JobRecord) (now executionTime : Nat) (errMsg : String) : JobRecord :=
  if r.retryCount < r.maxRetries then scheduleRetry r now
  else failJob r now executionTime errMsg

/-- Outcome of the race between the job function and the timeout timer:
either the function settles with data, or an error is thrown (a handler
error, the no-processor error, or the `TimeoutError` of
`createTimeoutPromise`). -/
inductive ExecOutcome where
  | success (data : String)
  | failure (errMsg : String)
deriving DecidableEq, Repr

/-- The tail of `executeJob` after the race settles: the record is updated
according to the outcome, and — in the `finally` block, hence on every exit
path — the job id is removed from the run table. -/
def executeJobFinish (r : JobRecord) (outcome : ExecOutcome)
    (now executionTime : Nat) (runningJobs : List Nat) : JobRecord × List Nat :=
  (match outcome with
   | .success data => completeJob r now executionTime data
   | .failure msg => handleFailure r now executionTime msg,
   runningJobs.erase r.id)

/-- The priority value as stored: a string field in the MongoDB schema
(enum `["low", "normal", "high", "critical"]`). -/
def priorityString : JobPriority → String
  | .low => "low"
  | .normal => "normal"
  | .high => "high"
  | .critical => "critical"

/-- The priority as ordered by the MySQL `ENUM` column: enum members sort by
their declaration index, `low = 1, normal = 2, high = 3, critical = 4`. -/
def priorityEnumIndex : JobPriority → Nat
  | .low => 1
  | .normal => 2
  | .high => 3
  | .critical => 4

/-- Due filter of `getPendingJobs`: status `pending` and
`scheduledAt <= now OR scheduledAt IS NULL`. -/
def isDue (r : JobRecord) (now : Nat) : Bool :=
  r.status == JobStatus.pending &&
    (match r.scheduledAt with
     | some t => t ≤ now
     | none => true)

/-- Stable insertion into a sorted list, used to model a database sort. -/
def insertSorted (le : JobRecord → JobRecord → Bool) (r : JobRecord) :
    List JobRecord → List JobRecord
  | [] => [r]
  | x :: xs => if le r x then r :: x :: xs else x :: insertSorted le r xs

/-- Stable sort by a boolean comparison, used to model a database sort. -/
def sortJobs (le : JobRecord → JobRecord → Bool) (l : List JobRecord) : List JobRecord :=
  l.foldr (insertSorted le) []

/-- Byte-wise lexicographic comparison of strings, the BSON ordering MongoDB
applies to string fields (for the ASCII priority values, code-unit order and
byte order coincide). -/
def strLtb : List Char → List Char → Bool
  | [], [] => false
  | [], _ :: _ => true
  | _ :: _, [] => false
  | c :: cs, d :: ds => if c = d then strLtb cs ds else decide (c < d)

/-- The MongoDB sort `{ priority: -1, createdAt: 1 }`: the stored `priority`
is a string, and MongoDB compares strings lexicographically, so descending
priority means descending string order. -/
def mongoJobLe (a b : JobRecord) : Bool :=
  if priorityString a.priority = priorityString b.priority then a.createdAt ≤ b.createdAt
  else strLtb (priorityString b.priority).data (priorityString a.priority).data

/-- The MySQL sort `ORDER BY priority DESC, createdAt ASC`: a MySQL `ENUM`
column orders by declaration index. -/
def mysqlJobLe (a b : JobRecord) : Bool :=
  if priorityEnumIndex a.priority = priorityEnumIndex b.priority then
    a.createdAt ≤ b.createdAt
  else priorityEnumIndex b.priority < priorityEnumIndex a.priority

/-- `getPendingJobs` on the MongoDB backend: due pending records, sorted by
`{ priority: -1, createdAt: 1 }`, limited to the free concurrency slots. -/
def getPendingJobsMongo (store : List JobRecord) (now limit : Nat) : List JobRecord :=
  (sortJobs mongoJobLe (store.filter (fun r => isDue r now))).take limit

/-- `getPendingJobs` on the MySQL backend: same filter and limit, ordered by
the `ENUM` index of `priority` descending then `createdAt` ascending. -/
def getPendingJobsMysql (store : List JobRecord) (now limit : Nat) : List JobRecord :=
  (sortJobs mysqlJobLe (store.filter (fun r => isDue r now))).take limit

/-- `runningJobs.set(id, promise)` restricted to its key set: setting an
already-present key leaves the key set unchanged. -/
def insertRun (runningJobs : List Nat) (id : Nat) : List Nat :=
  if id ∈ runningJobs then runningJobs else id :: runningJobs

/-- The claiming loop of `processJobs`: walk the fetched jobs and start each
one, breaking as soon as `runningJobs.size >= maxConcurrency`. -/
def claimLoop (maxConcurrency : Nat) (runningJobs : List Nat) :
    List JobRecord → List Nat
  | [] => runningJobs
  | j :: rest =>
      if maxConcurrency ≤ runningJobs.length then runningJobs
      else claimLoop maxConcurrency (insertRun runningJobs j.id) rest

/-- `processJobs` restricted to the run table: return unchanged when already
at capacity, otherwise run the claiming loop over the fetched jobs. -/
def processJobs (maxConcurrency : Nat) (runningJobs : List Nat)
    (pendingJobs : List JobRecord) : List Nat :=
  if maxConcurrency ≤ runningJobs.length then runningJobs
  else claimLoop maxConcurrency runningJobs pendingJobs

/-- `cancelJob` on the MongoDB backend:
`findOneAndUpdate({ id, status: { $in: [pending, failed] } },
{ status: cancelled, updatedAt: now })`; returns whether a document
matched.  `completedAt` is not touched. -/
def cancelJobMongo (store : List JobRecord) (id : Nat) (now : Nat) :
    Bool × List JobRecord :=
  let isHit := fun (r : JobRecord) =>
    r.id = id ∧ (r.status = .pending ∨ r.status = .failed)
  match store.find? (fun r => decide (isHit r)) with
  | some _ =>
      (true, store.map fun r =>
        if isHit r then { r with status := .cancelled, updatedAt := now } else r)
  | none => (false, store)

/-- `cancelJob` on the MySQL backend:
`update({ id, status: pending }, { status: cancelled })`.  The filter admits
only `pending` (not `failed`), and the code tests the truthiness of the
returned `UpdateResult` object — which is an object, hence always truthy —
so the boolean result is `true` whether or not any row matched. -/
def cancelJobMysql (store : List JobRecord) (id : Nat) (now : Nat) :
    Bool × List JobRecord :=
  (true, store.map fun r =>
    if r.id = id ∧ r.status = .pending then
      { r with status := .cancelled, updatedAt := now }
    else r)

/-- The update applied by the public `retryJob` to a `failed` record:
`{ status: pending, retryCount: 0, error: null, result: null }`.
`completedAt` is not cleared. -/
def retryUpdate (r : JobRecord) (now : Nat) : JobRecord :=
  { r with status := .pending, retryCount := 0, error := none, result := none
           updatedAt := now }

/-- `retryJob` on the MongoDB backend:
`findOneAndUpdate({ id, status: failed }, retryUpdate)`. -/
def retryJobMongo (store : List JobRecord) (id : Nat) (now : Nat) :
    Bool × List JobRecord :=
  match store.find? (fun r => r.id = id && r.status == JobStatus.failed) with
  | some _ =>
      (true, store.map fun r =>
        if r.id = id && r.status == JobStatus.failed then retryUpdate r now else r)
  | none => (false, store)

/-- How `runJobFunction` resolves a job: a registered processor wins;
otherwise, when `functionData.module` is present (and `createJob` always
stores the serialized source there), the function is reconstructed from the
stored source and executed; only with no processor and no stored source is
the no-processor error thrown. -/
inductive RunResolution where
  | viaProcessor
  | viaModule (code : String)
  | noProcessorError
deriving DecidableEq, Repr

/-- The resolution logic of `runJobFunction`. -/
def runJobFunction (processors : List String) (r : JobRecord) : RunResolution :=
  if r.functionData.functionName ∈ processors then .viaProcessor
  else
    match r.functionData.module with
    | some code => .viaModule code
    | none => .noProcessorError

/-- The processors installed by `registerDefaultProcessors`. -/
def defaultProcessors : List String :=
  ["sendEmail", "processData", "cleanupFiles", "generateReport"]

/-- All single-record mutations the service performs on a job record. -/
inductive JobOp where
  | claim (now : Nat)
  | finishSuccess (now executionTime : Nat) (data : String)
  | finishFailure (now executionTime : Nat) (errMsg : String)
  | cancelMongoOp (now : Nat)
  | cancelMysqlOp (now : Nat)
  | retryOp (now : Nat)
deriving DecidableEq, Repr

/-- Apply a single-record mutation: the claim mark of `executeJob`, its two
outcome branches, cancellation on either backend (each guarded by the
status filter of its query), and the public retry. -/
def applyOp (r : JobRecord) : JobOp → JobRecord
  | .claim now => markRunning r now
  | .finishSuccess now t data => completeJob r now t data
  | .finishFailure now t msg => handleFailure r now t msg
  | .cancelMongoOp now =>
      if r.status = .pending ∨ r.status = .failed then
        { r with status := .cancelled, updatedAt := now }
      else r
  | .cancelMysqlOp now =>
      if r.status = .pending then { r with status := .cancelled, updatedAt := now }
      else r
  | .retryOp now => if r.status = .failed then retryUpdate r now else r

/-- `JobQueueStats` as returned by `getQueueStats`. -/
structure JobQueueStats where
  total : Nat
  pending : Nat
  running : Nat
  completed : Nat
  failed : Nat
  cancelled : Nat
  averageExecutionTime : ℚ
  successRate : ℚ
deriving DecidableEq, Repr

/-- The all-zero stats object `calculateStats` starts from. -/
def initialStats : JobQueueStats :=
  { total := 0, pending := 0, running := 0, completed := 0, failed := 0
    cancelled := 0, averageExecutionTime := 0, successRate := 0 }

/-- `stats[status] = count`: write the per-status count field. -/
def setStatusCount (st : JobQueueStats) (s : JobStatus) (c : Nat) : JobQueueStats :=
  match s with
  | .pending => { st with pending := c }
  | .running => { st with running := c }
  | .completed => { st with completed := c }
  | .failed => { st with failed := c }
  | .cancelled => { st with cancelled := c }

/-- Read the per-status count field of a stats object. -/
def statusCount (st : JobQueueStats) : JobStatus → Nat
  | .pending => st.pending
  | .running => st.running
  | .completed => st.completed
  | .failed => st.failed
  | .cancelled => st.cancelled

/-- One row of the MongoDB `$group` aggregation: the status (`_id`), the
group size, and the group average of `completedAt - startedAt` (null when no
document of the group has both timestamps). -/
structure AggRow where
  status : JobStatus
  count : Nat
  avgExecutionTime : Option ℚ
deriving DecidableEq, Repr

/-- Accumulator of the `forEach` loop in `calculateStats`. -/
structure StatsAcc where
  stats : JobQueueStats
  totalExecutionTime : ℚ
  executionCount : Nat
deriving DecidableEq, Repr

/-- One iteration of the `forEach` loop in `calculateStats`:
`stats.total += count`, `stats[status] = count`, and — when
`result.avgExecutionTime` is truthy, i.e. present and nonzero — accumulate
the weighted execution time. -/
def statsStep (acc : StatsAcc) (row : AggRow) : StatsAcc :=
  let st := setStatusCount { acc.stats with total := acc.stats.total + row.count }
    row.status row.count
  match row.avgExecutionTime with
  | some a =>
      if a = 0 then { acc with stats := st }
      else { stats := st
             totalExecutionTime := acc.totalExecutionTime + a * row.count
             executionCount := acc.executionCount + row.count }
  | none => { acc with stats := st }

/-- `calculateStats`: fold the aggregation rows, then fill
`averageExecutionTime` and `successRate = completed / total * 100`
(`0` when `total = 0`). -/
def calculateStats (results : List AggRow) : JobQueueStats :=
  let acc := results.foldl statsStep ⟨initialStats, 0, 0⟩
  let st := { acc.stats with
    averageExecutionTime :=
      if 0 < acc.executionCount then acc.totalExecutionTime / acc.executionCount
      else 0 }
  { st with
    successRate :=
      if 0 < st.total then (st.completed : ℚ) / (st.total : ℚ) * 100 else 0 }

/-- `calculateStatsFromCounts` (MySQL): same count handling, no execution
times. -/
def calculateStatsFromCounts (statusCounts : List (JobStatus × Nat)) : JobQueueStats :=
  let st := statusCounts.foldl
    (fun st sc => setStatusCount { st with total := st.total + sc.2 } sc.1 sc.2)
    initialStats
  { st with
    successRate :=
      if 0 < st.total then (st.completed : ℚ) / (st.total : ℚ) * 100 else 0 }

/-- The five statuses, in schema order. -/
def statusList : List JobStatus :=
  [.pending, .running, .completed, .failed, .cancelled]

/-- Number of records of a store holding a given status. -/
def countStatus (store : List JobRecord) (s : JobStatus) : Nat :=
  (store.filter (fun r => r.status == s)).length

/-- The group average of `completedAt - startedAt` over the records of one
status: null when no record of the group carries both timestamps. -/
def avgExecTime (store : List JobRecord) (s : JobStatus) : Option ℚ :=
  let times := (store.filter (fun r => r.status == s)).filterMap fun r =>
    match r.startedAt, r.completedAt with
    | some a, some b => some ((b : ℚ) - (a : ℚ))
    | _, _ => none
  if times.length = 0 then none else some (times.sum / times.length)

/-- The MongoDB `$group`-by-status pipeline: one row per status actually
present in the store. -/
def aggregateByStatus (store : List JobRecord) : List AggRow :=
  (statusList.filter (fun s => countStatus store s ≠ 0)).map fun s =>
    { status := s, count := countStatus store s, avgExecutionTime := avgExecTime store s }

/-- `getQueueStats` on the MongoDB backend (the cache layer aside):
aggregate by status, then `calculateStats`. -/
def getQueueStatsMongo (store : List JobRecord) : JobQueueStats :=
  calculateStats (aggregateByStatus store)

/-- A freshly submitted record with the service defaults, used as the base
of the concrete scenarios below. -/
def sampleBase : JobRecord :=
  { id := 1
    name := "sampleTask"
    functionData := { functionName := "sampleTask", args := []
                      module := some "async function sampleTask() ..." }
    status := .pending
    priority := .normal
    scheduledAt := some 0
    startedAt := none
    completedAt := none
    result := none
    error := none
    retryCount := 0
    maxRetries := 3
    retryDelay := 5000
    timeout := 300000
    createdAt := 0
    updatedAt := 0 }

/-!  Theorems -/

/-- Claim C1, counterexample.  The claim states that the `Pending → Running`
transition succeeds only if the record is still `Pending`.  In the code the
transition is `updateJobStatus(job.id, "running", ...)`, whose filter is the
id alone: applied to a store whose only record is already `cancelled`, the
update still succeeds and marks it `running`, while the compare-and-set
claim described by the spec would refuse. -/
theorem claim_succeeds_on_non_pending_record :
    ((sampleBase.status = JobStatus.cancelled) = False) ∧
    (let rc := { sampleBase with status := JobStatus.cancelled }
     rc.status ≠ JobStatus.pending ∧
     (claimJobStore [rc] 1 10).map (fun r => r.status) = [JobStatus.running] ∧
     (tryClaimCAS [rc] 1 10).1 = false) := by decide

/-- Claim C1, amended.  `executeJob` marks a job running via an update keyed
only on the job id: whatever the record's current status, the matching
record is overwritten with the `running` patch, so nothing at the store
level prevents a second claimer from succeeding on the same record. -/
theorem claimJobStore_succeeds_regardless_of_status
    (store : List JobRecord) (id now : Nat) (j : JobRecord)
    (hj : j ∈ store) (hid : j.id = id) :
    markRunning j now ∈ claimJobStore store id now := by
  unfold claimJobStore updateJobStatusStore
  exact List.mem_map.2 ⟨j, hj, by simp [hid]⟩

/-- Witness for the amended claim C1 at a concrete cancelled record. -/
theorem claimJobStore_succeeds_witness :
    markRunning { sampleBase with status := JobStatus.cancelled } 10 ∈
      claimJobStore [{ sampleBase with status := JobStatus.cancelled }] 1 10 :=
  claimJobStore_succeeds_regardless_of_status _ 1 10 _ (by simp) (by decide)

/-- Claim C2, counterexample.  The claim states that a job whose name has no
registered processor terminates immediately as `Failed` with
`retryCount = 0`.  In the code, `runJobFunction` falls back to executing the
serialized function source stored by `createJob`, and when that execution
throws, the generic `catch` of `executeJob` re-pends the job with
`retryCount = 1` (its retry budget is untouched by the missing handler). -/
theorem no_processor_job_is_retried_not_failed :
    (let j := { sampleBase with
                  functionData := { functionName := "analyzeContent", args := []
                                    module := some "async () => 1" } }
     let after := (executeJobFinish j
       (.failure "Failed to execute job function: boom") 100 5 []).1
     (decide (j.functionData.functionName ∈ defaultProcessors)) = false ∧
     runJobFunction defaultProcessors j = RunResolution.viaModule "async () => 1" ∧
     ¬(after.status = JobStatus.failed ∧ after.retryCount = 0) ∧
     after.status = JobStatus.pending ∧ after.retryCount = 1) := by decide

/-- Claim C2, amended.  A job whose name has no registered processor is not
failed immediately: `runJobFunction` never resolves it to a processor, falls
back to the serialized source when one is stored, and a failure of that
execution goes through the ordinary retry logic, re-pending the job with
`retryCount + 1` while `retryCount < maxRetries`. -/
theorem no_processor_falls_back_and_retries
    (procs : List String) (r : JobRecord) (now t : Nat) (m : String)
    (rj : List Nat)
    (hname : r.functionData.functionName ∉ procs)
    (hbudget : r.retryCount < r.maxRetries) :
    runJobFunction procs r ≠ RunResolution.viaProcessor ∧
    (∀ code, r.functionData.module = some code →
      runJobFunction procs r = RunResolution.viaModule code) ∧
    (executeJobFinish r (.failure m) now t rj).1.status = JobStatus.pending ∧
    (executeJobFinish r (.failure m) now t rj).1.retryCount = r.retryCount + 1 := by
  refine ⟨?_, ?_, ?_, ?_⟩
  · simp [runJobFunction, hname]
    cases h : r.functionData.module <;> simp
  · intro code hcode
    simp [runJobFunction, hname, hcode]
  · simp [executeJobFinish, handleFailure, hbudget, scheduleRetry]
  · simp [executeJobFinish, handleFailure, hbudget, scheduleRetry]

/-- Witness for the amended claim C2 at a concrete unregistered job. -/
theorem no_processor_falls_back_witness :
    runJobFunction defaultProcessors
        { sampleBase with
            functionData := { functionName := "analyzeContent", args := []
                              module := some "async () => 1" } } ≠
      RunResolution.viaProcessor ∧
    (∀ code,
      ({ sampleBase with
           functionData := { functionName := "analyzeContent", args := []
                             module := some "async () => 1" } } :
        JobRecord).functionData.module = some code →
      runJobFunction defaultProcessors
          { sampleBase with
              functionData := { functionName := "analyzeContent", args := []
                                module := some "async () => 1" } } =
        RunResolution.viaModule code) ∧
    (executeJobFinish
        { sampleBase with
            functionData := { functionName := "analyzeContent", args := []
                              module := some "async () => 1" } }
        (.failure "boom") 100 5 []).1.status = JobStatus.pending ∧
    (executeJobFinish
        { sampleBase with
            functionData := { functionName := "analyzeContent", args := []
                              module := some "async () => 1" } }
        (.failure "boom") 100 5 []).1.retryCount = 0 + 1 :=
  no_processor_falls_back_and_retries defaultProcessors _ 100 5 "boom" []
    (by decide) (by decide)

/-- Claim C3, failing input.  Two due pending jobs: `a` with priority
`normal` created at time 0, `b` with priority `critical` created at time 1.
The MongoDB backend sorts the string field `priority` descending, and
lexicographically `"normal" > "critical"`, so with one free slot the
`normal` job is fetched first — the claimed order (Critical before Normal)
is what the MySQL `ENUM` ordering produces, and what the claim expects on
the next tick. -/
theorem mongo_priority_sort_normal_before_critical :
    (let a := { sampleBase with id := 1, priority := JobPriority.normal, createdAt := 0 }
     let b := { sampleBase with id := 2, priority := JobPriority.critical, createdAt := 1 }
     isDue a 10 = true ∧ isDue b 10 = true ∧
     getPendingJobsMongo [a, b] 10 1 = [a] ∧
     getPendingJobsMysql [a, b] 10 1 = [b]) := by decide

/-- Claim C4, failing input.  Cancelling a pending record sets the status to
`cancelled` but never writes `completedAt`, and the public retry of a failed
record resets it to `pending` without clearing `completedAt`: in both
resulting states the claimed equivalence between a set `completedAt` and a
terminal status is violated. -/
theorem cancel_and_retry_break_completedAt_iff :
    ((cancelJobMongo [sampleBase] 1 50).1 = true ∧
     ((cancelJobMongo [sampleBase] 1 50).2.map fun r => (r.status, r.completedAt)) =
       [(JobStatus.cancelled, none)]) ∧
    (let f := { sampleBase with status := JobStatus.failed, completedAt := some 40 }
     (retryJobMongo [f] 1 60).1 = true ∧
     ((retryJobMongo [f] 1 60).2.map fun r => (r.status, r.completedAt)) =
       [(JobStatus.pending, some 40)]) := by decide

/-- Claim C5, failing input.  On the MySQL backend `cancelJob` tests the
truthiness of the returned `UpdateResult` object, which is always truthy, so
it returns `true` even for an unknown id; and its filter admits only
`pending`, so a `failed` record is reported cancelled while left unchanged.
(The MongoDB branch, by contrast, does behave as claimed.) -/
theorem mysql_cancel_returns_true_without_matching :
    (cancelJobMysql [] 42 10).1 = true ∧
    (let f := { sampleBase with status := JobStatus.failed }
     cancelJobMysql [f] 1 10 = (true, [f])) ∧
    (cancelJobMongo [] 42 10).1 = false ∧
    (let f := { sampleBase with status := JobStatus.failed }
     (cancelJobMongo [f] 1 10).1 = true ∧
     ((cancelJobMongo [f] 1 10).2.map fun r => r.status) = [JobStatus.cancelled]) := by
  decide

/-- Claim C6.  When execution fails (handler error or timeout), `executeJob`
re-pends the job with `retryCount + 1`, `scheduledAt = now + retryDelay` and
a cleared transient error while `retryCount < maxRetries`; once the budget
is exhausted it persists the terminal failure with
`result = { success: false, error, executionTime }`. -/
theorem executeJob_failure_retries_then_fails
    (r : JobRecord) (now t : Nat) (m : String) (rj : List Nat) :
    (r.retryCount < r.maxRetries →
      ((executeJobFinish r (.failure m) now t rj).1.status = JobStatus.pending ∧
       (executeJobFinish r (.failure m) now t rj).1.retryCount = r.retryCount + 1 ∧
       (executeJobFinish r (.failure m) now t rj).1.scheduledAt =
         some (now + r.retryDelay) ∧
       (executeJobFinish r (.failure m) now t rj).1.error = none)) ∧
    (r.maxRetries ≤ r.retryCount →
      ((executeJobFinish r (.failure m) now t rj).1.status = JobStatus.failed ∧
       (executeJobFinish r (.failure m) now t rj).1.result =
         some { success := false, data := none, error := some m
                executionTime := some t } ∧
       (executeJobFinish r (.failure m) now t rj).1.completedAt = some now)) := by
  constructor
  · intro h
    simp [executeJobFinish, handleFailure, h, scheduleRetry]
  · intro h
    have h' : ¬ r.retryCount < r.maxRetries := Nat.not_lt.2 h
    simp [executeJobFinish, handleFailure, h', failJob]

/-- Witness for claim C6: the retry branch on a fresh record, and the
terminal branch on a record whose budget is exhausted. -/
theorem executeJob_failure_witness :
    ((executeJobFinish sampleBase (.failure "boom") 100 5 []).1.status =
        JobStatus.pending ∧
     (executeJobFinish sampleBase (.failure "boom") 100 5 []).1.retryCount = 0 + 1 ∧
     (executeJobFinish sampleBase (.failure "boom") 100 5 []).1.scheduledAt =
        some (100 + sampleBase.retryDelay) ∧
     (executeJobFinish sampleBase (.failure "boom") 100 5 []).1.error = none) ∧
    ((executeJobFinish { sampleBase with retryCount := 3 }
        (.failure "boom") 100 5 []).1.status = JobStatus.failed ∧
     (executeJobFinish { sampleBase with retryCount := 3 }
        (.failure "boom") 100 5 []).1.result =
       some { success := false, data := none, error := some "boom"
              executionTime := some 5 } ∧
     (executeJobFinish { sampleBase with retryCount := 3 }
        (.failure "boom") 100 5 []).1.completedAt = some 100) :=
  ⟨(executeJob_failure_retries_then_fails sampleBase 100 5 "boom" []).1 (by decide),
   (executeJob_failure_retries_then_fails { sampleBase with retryCount := 3 }
      100 5 "boom" []).2 (by decide)⟩

/-- Claim C7.  `retryCount ≤ maxRetries` holds at creation and is preserved
by every single-record mutation of the service; moreover, once
`retryCount = maxRetries`, a further failure is terminal, so a record is
re-pended after a failure at most `maxRetries` times. -/
theorem retryCount_never_exceeds_maxRetries :
    (∀ cfg opts id now fnName fnSource customName,
      (createJob cfg opts id now fnName fnSource customName).retryCount ≤
        (createJob cfg opts id now fnName fnSource customName).maxRetries) ∧
    (∀ r op, r.retryCount ≤ r.maxRetries →
      (applyOp r op).retryCount ≤ (applyOp r op).maxRetries) ∧
    (∀ r now t m, r.retryCount = r.maxRetries →
      (applyOp r (.finishFailure now t m)).status = JobStatus.failed) := by
  refine ⟨?_, ?_, ?_⟩
  · intro cfg opts id now fnName fnSource customName
    simp [createJob]
  · intro r op h
    cases op with
    | claim now => simpa [applyOp, markRunning] using h
    | finishSuccess now t d => simpa [applyOp, completeJob] using h
    | finishFailure now t m =>
        by_cases hlt : r.retryCount < r.maxRetries
        · simp [applyOp, handleFailure, hlt, scheduleRetry]
          omega
        · simpa [applyOp, handleFailure, hlt, failJob] using h
    | cancelMongoOp now =>
        simp only [applyOp]
        split <;> simpa using h
    | cancelMysqlOp now =>
        simp only [applyOp]
        split <;> simpa using h
    | retryOp now =>
        simp only [applyOp]
        split
        · simp [retryUpdate]
        · exact h
  · intro r now t m h
    have h' : ¬ r.retryCount < r.maxRetries := by omega
    simp [applyOp, handleFailure, h', failJob]

/-- Witness for claim C7: preservation on a concrete failure step, and
terminality once the budget is consumed. -/
theorem retryCount_invariant_witness :
    ((applyOp sampleBase (.finishFailure 9 1 "e")).retryCount ≤
      (applyOp sampleBase (.finishFailure 9 1 "e")).maxRetries) ∧
    (applyOp { sampleBase with retryCount := 3 }
      (.finishFailure 9 1 "e")).status = JobStatus.failed :=
  ⟨retryCount_never_exceeds_maxRetries.2.1 sampleBase _ (by decide),
   retryCount_never_exceeds_maxRetries.2.2 { sampleBase with retryCount := 3 }
     9 1 "e" (by decide)⟩

/-- Inserting into the run table grows its key set by at most one. -/
theorem insertRun_length_le (rt : List Nat) (id : Nat) :
    (insertRun rt id).length ≤ rt.length + 1 := by
  unfold insertRun
  split <;> simp

/-- The claiming loop of `processJobs` keeps the run table within the
concurrency bound. -/
theorem claimLoop_length_le (jobs : List JobRecord) :
    ∀ maxC rt, rt.length ≤ maxC → (claimLoop maxC rt jobs).length ≤ maxC := by
  induction jobs with
  | nil => intro maxC rt h; simpa [claimLoop] using h
  | cons j rest ih =>
      intro maxC rt h
      by_cases hc : maxC ≤ rt.length
      · simpa [claimLoop, hc] using h
      · simp only [claimLoop, if_neg hc]
        exact ih maxC _ (le_trans (insertRun_length_le rt j.id)
          (by omega))

/-- Claim C8.  A poll tick never pushes the run table past
`maxConcurrency`, and `executeJob` removes the job id from the run table in
its `finally` block — on every exit path, so the id is gone afterwards. -/
theorem runTable_bounded_and_slot_released :
    (∀ maxC rt jobs, rt.length ≤ maxC →
      (processJobs maxC rt jobs).length ≤ maxC) ∧
    (∀ r o now t rt, (executeJobFinish r o now t rt).2 = rt.erase r.id) ∧
    (∀ r o now t (rt : List Nat), rt.Nodup →
      r.id ∉ (executeJobFinish r o now t rt).2) := by
  refine ⟨?_, ?_, ?_⟩
  · intro maxC rt jobs h
    unfold processJobs
    split
    · exact h
    · exact claimLoop_length_le jobs maxC rt h
  · intro r o now t rt
    rfl
  · intro r o now t rt hnd hmem
    rw [show (executeJobFinish r o now t rt).2 = rt.erase r.id from rfl] at hmem
    exact ((List.Nodup.mem_erase_iff hnd).1 hmem).1 rfl

/-- Witness for claim C8: a tick with `maxConcurrency = 1` over two due
jobs, and slot release after a successful execution. -/
theorem runTable_bound_witness :
    (processJobs 1 [] [sampleBase, { sampleBase with id := 2 }]).length ≤ 1 ∧
    (7 : Nat) ∉ (executeJobFinish { sampleBase with id := 7 }
      (.success "ok") 1 1 [7, 9]).2 :=
  ⟨runTable_bounded_and_slot_released.1 1 [] _ (by decide),
   by
     have h := runTable_bounded_and_slot_released.2.2 { sampleBase with id := 7 }
       (.success "ok") 1 1 [7, 9] (by decide)
     simpa using h⟩

/-- Writing a per-status count field leaves `total` unchanged. -/
theorem setStatusCount_total (st : JobQueueStats) (s : JobStatus) (c : Nat) :
    (setStatusCount st s c).total = st.total := by
  cases s <;> rfl

/-- Reading a per-status count field after writing one. -/
theorem statusCount_setStatusCount (st : JobQueueStats) (s' : JobStatus) (c : Nat)
    (s : JobStatus) :
    statusCount (setStatusCount st s' c) s = if s = s' then c else statusCount st s := by
  cases s <;> cases s' <;> simp [setStatusCount, statusCount]

/-- Per-status count fields ignore a `total` update. -/
theorem statusCount_total_update (st : JobQueueStats) (n : Nat) (s : JobStatus) :
    statusCount { st with total := n } s = statusCount st s := by
  cases s <;> rfl

/-- The stats part of one loop iteration: add the row count to `total` and
overwrite the row's status field, whatever the execution-time branch did. -/
theorem statsStep_stats (acc : StatsAcc) (row : AggRow) :
    (statsStep acc row).stats =
      setStatusCount { acc.stats with total := acc.stats.total + row.count }
        row.status row.count := by
  rcases row with ⟨s, c, a⟩
  cases a with
  | none => rfl
  | some q => by_cases h : q = 0 <;> simp [statsStep, h]

/-- Folding the loop accumulates the row counts into `total`. -/
theorem statsFold_total (rows : List AggRow) :
    ∀ acc : StatsAcc, (rows.foldl statsStep acc).stats.total =
      acc.stats.total + (rows.map AggRow.count).sum := by
  induction rows with
  | nil => intro acc; simp
  | cons row rest ih =>
      intro acc
      simp only [List.foldl_cons, List.map_cons, List.sum_cons]
      rw [ih]
      have h : (statsStep acc row).stats.total = acc.stats.total + row.count := by
        rw [statsStep_stats, setStatusCount_total]
      rw [h]
      omega

/-- Rows of other statuses do not touch a given status field. -/
theorem statsFold_statusCount_notin (rows : List AggRow) :
    ∀ (acc : StatsAcc) (s : JobStatus), (∀ row ∈ rows, row.status ≠ s) →
      statusCount (rows.foldl statsStep acc).stats s = statusCount acc.stats s := by
  induction rows with
  | nil => intro acc s _; rfl
  | cons row rest ih =>
      intro acc s h
      simp only [List.foldl_cons]
      rw [ih _ s (fun r hr => h r (List.mem_cons_of_mem _ hr))]
      have h0 : row.status ≠ s := h row (List.mem_cons_self _ _)
      rw [statsStep_stats, statusCount_setStatusCount,
        if_neg (fun hs => h0 hs.symm), statusCount_total_update]

/-- With pairwise-distinct statuses, a status field of the folded stats is
the count of the row carrying that status, or untouched when no row does. -/
theorem statsFold_statusCount_find (rows : List AggRow) :
    ∀ (acc : StatsAcc) (s : JobStatus), (rows.map AggRow.status).Nodup →
      statusCount (rows.foldl statsStep acc).stats s =
        ((rows.find? (fun row => row.status == s)).map AggRow.count).getD
          (statusCount acc.stats s) := by
  induction rows with
  | nil => intro acc s _; rfl
  | cons row rest ih =>
      intro acc s hnd
      simp only [List.foldl_cons]
      by_cases hs : row.status = s
      · have hp : (row.status == s) = true := by simp [hs]
        simp only [List.find?_cons, hp]
        rw [List.map_cons] at hnd
        have hmem : row.status ∉ rest.map AggRow.status := (List.nodup_cons.1 hnd).1
        have hrest : ∀ r ∈ rest, r.status ≠ s := by
          intro r hr hcon
          exact hmem (by
            rw [hs, ← hcon]
            exact List.mem_map_of_mem _ hr)
        rw [statsFold_statusCount_notin rest _ s hrest]
        rw [statsStep_stats, statusCount_setStatusCount, if_pos hs.symm]
        rfl
      · have hp : (row.status == s) = false := by simp [hs]
        simp only [List.find?_cons, hp]
        rw [List.map_cons] at hnd
        have hnd' : (rest.map AggRow.status).Nodup := (List.nodup_cons.1 hnd).2
        rw [ih _ s hnd']
        cases hfind : rest.find? (fun row => row.status == s) with
        | some r0 => simp [hfind]
        | none =>
            simp only [hfind, Option.map_none', Option.getD_none]
            rw [statsStep_stats, statusCount_setStatusCount,
              if_neg (fun h => hs h.symm), statusCount_total_update]

/-- Finding the aggregation row of a status in the grouped rows. -/
theorem find?_aggregate (store : List JobRecord) (p : JobStatus → Bool)
    (l : List JobStatus) (s : JobStatus) :
    ((l.filter p).map
        (fun s' => AggRow.mk s' (countStatus store s') (avgExecTime store s'))).find?
          (fun row => row.status == s) =
      if s ∈ l ∧ p s = true then
        some (AggRow.mk s (countStatus store s) (avgExecTime store s))
      else none := by
  induction l with
  | nil => simp
  | cons a t ih =>
      by_cases has : a = s
      · subst has
        cases hpa : p a
        · rw [List.filter_cons_of_neg (by simp [hpa])]
          rw [ih]
          by_cases hmem : a ∈ t
          · simp [hmem, hpa]
          · simp [hmem, hpa]
        · rw [List.filter_cons_of_pos (by simp [hpa])]
          simp [List.find?_cons, hpa]
      · have has' : ¬ s = a := fun h => has h.symm
        cases hpa : p a
        · rw [List.filter_cons_of_neg (by simp [hpa])]
          rw [ih]
          simp [List.mem_cons, has']
        · rw [List.filter_cons_of_pos (by simp [hpa])]
          simp only [List.map_cons, List.find?_cons]
          have hne : (a == s) = false := by simp [has]
          simp only [hne]
          rw [ih]
          simp [List.mem_cons, has']

/-- Dropping entries on which `f` vanishes does not change the sum. -/
theorem sum_counts_filter (f : JobStatus → Nat) (p : JobStatus → Bool)
    (hp : ∀ s, p s = false → f s = 0) (l : List JobStatus) :
    ((l.filter p).map f).sum = (l.map f).sum := by
  induction l with
  | nil => rfl
  | cons a t ih =>
      cases hpa : p a
      · rw [List.filter_cons_of_neg (by simp [hpa])]
        rw [ih]
        simp [hp a hpa]
      · rw [List.filter_cons_of_pos (by simp [hpa])]
        simp [ih]

/-- Per-status counting over a cons cell. -/
theorem countStatus_cons (r : JobRecord) (t : List JobRecord) (s : JobStatus) :
    countStatus (r :: t) s = (if r.status = s then 1 else 0) + countStatus t s := by
  by_cases h : r.status = s <;> (simp [countStatus, List.filter_cons, h]; try omega)

/-- The five per-status counts partition the store. -/
theorem sum_countStatus (store : List JobRecord) :
    countStatus store .pending + countStatus store .running +
      countStatus store .completed + countStatus store .failed +
      countStatus store .cancelled = store.length := by
  induction store with
  | nil => rfl
  | cons r t ih =>
      cases hs : r.status <;> simp [countStatus_cons, hs] <;> omega

/-- The statuses carried by the aggregation rows. -/
theorem aggregate_statuses (store : List JobRecord) :
    (aggregateByStatus store).map AggRow.status =
      statusList.filter (fun s => countStatus store s ≠ 0) := by
  rw [aggregateByStatus, List.map_map]
  exact List.map_id _

/-- Claim C9.  For every store state, the MongoDB `getQueueStats` pipeline
yields per-status counts matching the store, the five counts sum to `total`,
`total` is the number of records, and
`successRate = completed / total * 100` (`0` when the store is empty). -/
theorem getQueueStats_counts_exhaustive (store : List JobRecord) :
    (getQueueStatsMongo store).pending = countStatus store .pending ∧
    (getQueueStatsMongo store).running = countStatus store .running ∧
    (getQueueStatsMongo store).completed = countStatus store .completed ∧
    (getQueueStatsMongo store).failed = countStatus store .failed ∧
    (getQueueStatsMongo store).cancelled = countStatus store .cancelled ∧
    (getQueueStatsMongo store).pending + (getQueueStatsMongo store).running +
      (getQueueStatsMongo store).completed + (getQueueStatsMongo store).failed +
      (getQueueStatsMongo store).cancelled = (getQueueStatsMongo store).total ∧
    (getQueueStatsMongo store).total = store.length ∧
    (getQueueStatsMongo store).successRate =
      (if 0 < (getQueueStatsMongo store).total then
        ((getQueueStatsMongo store).completed : ℚ) /
          ((getQueueStatsMongo store).total : ℚ) * 100
      else 0) := by
  have hnd : ((aggregateByStatus store).map AggRow.status).Nodup := by
    rw [aggregate_statuses]
    exact List.Nodup.filter _ (by decide)
  have hfield : ∀ s : JobStatus,
      statusCount (getQueueStatsMongo store) s = countStatus store s := by
    intro s
    have h1 : statusCount (getQueueStatsMongo store) s =
        statusCount ((aggregateByStatus store).foldl statsStep
          ⟨initialStats, 0, 0⟩).stats s := by
      cases s <;> rfl
    rw [h1, statsFold_statusCount_find _ _ _ hnd]
    rw [show aggregateByStatus store =
      (statusList.filter (fun s' => countStatus store s' ≠ 0)).map
        (fun s' => AggRow.mk s' (countStatus store s') (avgExecTime store s'))
      from rfl]
    rw [find?_aggregate]
    have hmem : s ∈ statusList := by cases s <;> decide
    by_cases hc : countStatus store s = 0
    · rw [if_neg (fun hand => by simpa [hc] using hand.2)]
      have h0 : statusCount initialStats s = 0 := by cases s <;> rfl
      simp [h0, hc]
    · rw [if_pos ⟨hmem, by simpa using hc⟩]
      rfl
  have htotal : (getQueueStatsMongo store).total = store.length := by
    have h1 : (getQueueStatsMongo store).total =
        ((aggregateByStatus store).foldl statsStep ⟨initialStats, 0, 0⟩).stats.total :=
      rfl
    rw [h1, statsFold_total]
    have h2 : (aggregateByStatus store).map AggRow.count =
        (statusList.filter (fun s' => countStatus store s' ≠ 0)).map
          (countStatus store) := by
      rw [aggregateByStatus, List.map_map]
      rfl
    rw [h2, sum_counts_filter (countStatus store) _
      (fun s hs => by simpa using hs)]
    have h3 := sum_countStatus store
    simp only [statusList, List.map_cons, List.map_nil, List.sum_cons,
      List.sum_nil, initialStats]
    omega
  have hsr : (getQueueStatsMongo store).successRate =
      (if 0 < (getQueueStatsMongo store).total then
        ((getQueueStatsMongo store).completed : ℚ) /
          ((getQueueStatsMongo store).total : ℚ) * 100
      else 0) := rfl
  have e1 : (getQueueStatsMongo store).pending = countStatus store .pending :=
    hfield .pending
  have e2 : (getQueueStatsMongo store).running = countStatus store .running :=
    hfield .running
  have e3 : (getQueueStatsMongo store).completed = countStatus store .completed :=
    hfield .completed
  have e4 : (getQueueStatsMongo store).failed = countStatus store .failed :=
    hfield .failed
  have e5 : (getQueueStatsMongo store).cancelled = countStatus store .cancelled :=
    hfield .cancelled
  exact ⟨e1, e2, e3, e4, e5, by
      rw [e1, e2, e3, e4, e5, htotal]
      exact sum_countStatus store,
    htotal, hsr⟩

/-- Claim C10.  `createJob` resolves `maxRetries`, `retryDelay` and
`timeout` with JavaScript `||` against the service defaults, so a supplied
`0` (falsy) is replaced by the corresponding default; with a nonzero
default the created record therefore never carries `0` in these fields. -/
theorem createJob_replaces_zero_options
    (cfg : JobServiceConfig) (opts : JobOptions) (id now : Nat)
    (fnName fnSource : String) (customName : Option String) :
    (opts.maxRetries = some 0 →
      (createJob cfg opts id now fnName fnSource customName).maxRetries =
        cfg.defaultMaxRetries) ∧
    (opts.retryDelay = some 0 →
      (createJob cfg opts id now fnName fnSource customName).retryDelay =
        cfg.defaultRetryDelay) ∧
    (opts.timeout = some 0 →
      (createJob cfg opts id now fnName fnSource customName).timeout =
        cfg.defaultTimeout) := by
  refine ⟨?_, ?_, ?_⟩ <;> intro h <;> simp [createJob, jsOr, h]

/-- Witness for claim C10: submitting with all three options set to `0`
under the service configuration yields the (nonzero) defaults. -/
theorem createJob_zero_options_witness :
    ((createJob serviceConfig
        { maxRetries := some 0, retryDelay := some 0, timeout := some 0 }
        1 0 "task" "src" none).maxRetries = serviceConfig.defaultMaxRetries) ∧
    ((createJob serviceConfig
        { maxRetries := some 0, retryDelay := some 0, timeout := some 0 }
        1 0 "task" "src" none).retryDelay = serviceConfig.defaultRetryDelay) ∧
    ((createJob serviceConfig
        { maxRetries := some 0, retryDelay := some 0, timeout := some 0 }
        1 0 "task" "src" none).timeout = serviceConfig.defaultTimeout) :=
  ⟨(createJob_replaces_zero_options serviceConfig _ 1 0 "task" "src" none).1 rfl,
   (createJob_replaces_zero_options serviceConfig _ 1 0 "task" "src" none).2.1 rfl,
   (createJob_replaces_zero_options serviceConfig _ 1 0 "task" "src" none).2.2 rfl⟩

end Buflite
